import Mathlib

/-!
A verification development for the concurrent keyed store of the
pounce-on-go repository, as a shallow embedding of its Go sources.

Embedded here are:
* the string-keyed store with AddItem/GetItem (source file with
  type Store struct holding items map[string]Item and mu sync.Mutex),
* the identity-assigning ProductService with CreateProduct/GetProducts
  and the two HTTP handlers createProductHandler/getProductsHandler.

Go maps are modeled as association lists with no duplicate keys maintained
by the update operation (mapUpdate replaces in place or appends); the
embedding is sequential, matching the order in which operations acquire the
lock of the store.  Go int is modeled as Int (IDs and prices; no
claim-relevant overflow).  Where a claim is about pointers escaping to the
caller, an explicit cell list models the allocations the Go code performs.
-/

/-- Go map write m[k] = v: replace the binding if the key is present,
otherwise add a new binding. -/
def mapUpdate {α β : Type} [DecidableEq α] (k : α) (v : β) :
    List (α × β) → List (α × β)
  | [] => [(k, v)]
  | e :: rest => if e.1 = k then (k, v) :: rest else e :: mapUpdate k v rest

/-- Go map read v, ok := m[k]: some v when the key is bound, else none. -/
def mapLookup {α β : Type} [DecidableEq α] (k : α) :
    List (α × β) → Option β
  | [] => none
  | e :: rest => if e.1 = k then some e.2 else mapLookup k rest

/-- Record type of the bare store: type Item struct with Name string and
Price int. -/
structure Item where
  name : String
  price : Int
deriving DecidableEq, Repr

/-- State of the bare store: type Store struct with items map[string]Item
and mu sync.Mutex.  The mutex serializes operations; the sequential
embedding keeps only the protected data. -/
structure Store where
  items : List (String × Item)
deriving DecidableEq, Repr

/-- Constructor func NewStore() returning a store with an empty items map. -/
def NewStore : Store := ⟨[]⟩

/-- Method func (s *Store) AddItem(item Item): under the lock, writes
s.items[item.Name] = item. -/
def AddItem (s : Store) (item : Item) : Store :=
  ⟨mapUpdate item.name item s.items⟩

/-- Method func (s *Store) GetItem(name string) (error, *Item): under the
lock, item, ok := s.items[name]; when not ok it returns the pair of
errors.New with message item not found and a nil record; otherwise the pair
of a nil error and a pointer to item.  The pair mirrors the error-first Go
result; the record component carries the value behind the pointer, which is
the local copy read out of the map. -/
def GetItem (s : Store) (name : String) : Option String × Option Item :=
  match mapLookup name s.items with
  | none => (some "item not found", none)
  | some item => (none, some item)

/-- Record type of the service: type Product struct with ID int, Name
string, Price int. -/
structure Product where
  id : Int
  name : String
  price : Int
deriving DecidableEq, Repr

/-- State of the service: type ProductService struct with products
map[int]Product, mu sync.RWMutex and nextID int.  The sequential embedding
keeps the protected data. -/
structure ProductService where
  products : List (Int × Product)
  nextID : Int
deriving DecidableEq, Repr

/-- Constructor func NewProductService(): empty products map and nextID 1. -/
def NewProductService : ProductService :=
  ⟨[], 1⟩

/-- Method func (ps *ProductService) CreateProduct(newProduct Product):
under the lock, newProduct.ID = ps.nextID, then
ps.products[newProduct.ID] = newProduct, then ps.nextID++.  (The trailing
fmt.Printf only writes to standard output.) -/
def CreateProduct (ps : ProductService) (newProduct : Product) : ProductService :=
  let p := { newProduct with id := ps.nextID }
  { products := mapUpdate p.id p ps.products, nextID := ps.nextID + 1 }

/-- Value that CreateProduct hands back to its caller.  The Go method has an
empty result list, so the caller receives nothing; the empty Go result tuple
is Unit. -/
def CreateProductRet (_ps : ProductService) (_newProduct : Product) : Unit := ()

/-- Method func (ps ProductService) GetProducts() []Product: builds a fresh
slice with make and appends a copy of every map value. -/
def GetProducts (ps : ProductService) : List Product :=
  ps.products.map Prod.snd

/-- HTTP request methods the handlers inspect through r.Method. -/
inductive Method
  | get
  | post
  | put
  | delete
deriving DecidableEq, Repr

/-- Request body as seen by json.NewDecoder(r.Body).Decode: either input
that fails to parse into a Product, or a JSON object carrying any subset of
the id/name/price keys. -/
inductive Body
  | malformed
  | obj (id : Option Int) (name : Option String) (price : Option Int)
deriving DecidableEq, Repr

/-- Behavior of the encoding/json decode into var p Product: malformed input
yields an error; for an object, absent keys leave the corresponding field at
its zero value (0 for integers, the empty string for strings). -/
def decodeProduct : Body → Option Product
  | .malformed => none
  | .obj i n pr => some { id := i.getD 0, name := n.getD "", price := pr.getD 0 }

/-- The HTTP statuses the two handlers can emit. -/
inductive HStatus
  | ok
  | created
  | badRequest
  | methodNotAllowed
deriving DecidableEq, Repr

/-- Request function produced by createProductHandler(service): reject any
method other than POST with status 405 before touching the body; then
decode, rejecting with 400 on a decode error; then call
service.CreateProduct(p) and answer 201.  Result: the response status paired
with the service state after the call. -/
def createProductHandler (m : Method) (body : Body) (ps : ProductService) :
    HStatus × ProductService :=
  if m ≠ Method.post then (HStatus.methodNotAllowed, ps)
  else
    match decodeProduct body with
    | none => (HStatus.badRequest, ps)
    | some p => (HStatus.created, CreateProduct ps p)

/-- Request function produced by getProductsHandler(service): reject any
method other than GET with status 405; otherwise answer 200 with the JSON
encoding of service.GetProducts().  Result: status, the encoded product list
when one was written, and the (unchanged) service state. -/
def getProductsHandler (m : Method) (ps : ProductService) :
    (HStatus × Option (List Product)) × ProductService :=
  if m ≠ Method.get then ((HStatus.methodNotAllowed, none), ps)
  else ((HStatus.ok, some (GetProducts ps)), ps)

/-- A sequence of CreateProduct calls in lock-acquisition order. -/
def applyCreates (l : List Product) (ps : ProductService) : ProductService :=
  l.foldl CreateProduct ps

/-- Key list of the products map of a service state. -/
def keysOf (ps : ProductService) : List Int :=
  ps.products.map Prod.fst

/-- Invariant of service states reachable by CreateProduct calls: the
counter is one past the number of stored records, the key list is exactly
1, 2, ..., length in order, and every stored record carries its own key as
its ID field. -/
def GoodState (ps : ProductService) : Prop :=
  ps.nextID = (ps.products.length : Int) + 1 ∧
  keysOf ps = (List.range ps.products.length).map (fun i : Nat => (i : Int) + 1) ∧
  ∀ e ∈ ps.products, e.2.id = e.1

/-- Kind of the receiver in a Go method signature: a pointer receiver
operates on the original struct, a value receiver on a copy of it. -/
inductive ReceiverKind
  | pointer
  | value
deriving DecidableEq, Repr

/-- Receiver of CreateProduct, transcribed from its signature
func (ps *ProductService) CreateProduct(newProduct Product). -/
def createProductReceiver : ReceiverKind := ReceiverKind.pointer

/-- Receiver of GetProducts, transcribed from its signature
func (ps ProductService) GetProducts() []Product. -/
def getProductsReceiver : ReceiverKind := ReceiverKind.value

/-- Whether locking the mutex field of the receiver guards the shared
instance: with a pointer receiver the mutex locked is the one in the shared
struct; with a value receiver the struct — mutex included — is copied at
call time, so the lock taken is a private copy and excludes nobody. -/
def locksSharedGuard : ReceiverKind → Bool
  | ReceiverKind.pointer => true
  | ReceiverKind.value => false

/-- A bare store together with the cells GetItem allocates for escaped
copies: Go map values are not addressable, so the assignment
item, ok := s.items[name] copies the value into a fresh variable, and the
returned address points at that copy.  A pointer is the index of a cell. -/
structure StoreHeap where
  store : Store
  cells : List Item
deriving DecidableEq, Repr

/-- GetItem at the pointer level: on a hit it allocates a fresh cell holding
the copy and returns its index; on a miss it returns the error and a nil
pointer.  The store component is read, never written. -/
def getItemPtr (st : StoreHeap) (name : String) :
    (Option String × Option Nat) × StoreHeap :=
  match mapLookup name st.store.items with
  | none => ((some "item not found", none), st)
  | some item => ((none, some st.cells.length), ⟨st.store, st.cells ++ [item]⟩)

/-- A caller mutating the record behind a returned pointer. -/
def writeItemPtr (st : StoreHeap) (ptr : Nat) (v : Item) : StoreHeap :=
  ⟨st.store, st.cells.set ptr v⟩

/-- A service together with the slice cells GetProducts allocates: the make
call followed by append of each map value copies the records into a fresh
backing array. -/
structure ServiceHeap where
  service : ProductService
  cells : List Product
deriving DecidableEq, Repr

/-- GetProducts at the slice level: appends the copies to fresh cells and
returns the slice header as start index and length. -/
def getProductsAlloc (st : ServiceHeap) : (Nat × Nat) × ServiceHeap :=
  ((st.cells.length, (GetProducts st.service).length),
   ⟨st.service, st.cells ++ GetProducts st.service⟩)

/-- A caller mutating one element of a returned slice. -/
def writeProductCell (st : ServiceHeap) (i : Nat) (v : Product) : ServiceHeap :=
  ⟨st.service, st.cells.set i v⟩

/-- A later CreateProduct call on the shared service. -/
def createInHeap (st : ServiceHeap) (p : Product) : ServiceHeap :=
  ⟨CreateProduct st.service p, st.cells⟩

/-- Reading the slice with the given header out of the cells. -/
def readSlice (st : ServiceHeap) (start len : Nat) : List Product :=
  (st.cells.drop start).take len

/-! Section: Map lemmas -/

lemma mapLookup_mapUpdate_self {α β : Type} [DecidableEq α] (k : α) (v : β)
    (l : List (α × β)) : mapLookup k (mapUpdate k v l) = some v := by
  induction l with
  | nil => simp [mapUpdate, mapLookup]
  | cons e rest ih =>
    by_cases h : e.1 = k <;> simp [mapUpdate, mapLookup, h, ih]

lemma mapUpdate_of_fresh {α β : Type} [DecidableEq α] (k : α) (v : β)
    (l : List (α × β)) (h : ∀ e ∈ l, e.1 ≠ k) :
    mapUpdate k v l = l ++ [(k, v)] := by
  induction l with
  | nil => rfl
  | cons e rest ih =>
    have he : e.1 ≠ k := h e (by simp)
    simp only [mapUpdate, if_neg he, List.cons_append, List.cons.injEq, true_and]
    exact ih fun e' he' => h e' (by simp [he'])

/-! Section: Invariant of reachable service states -/

lemma goodState_new : GoodState NewProductService := by
  refine ⟨rfl, rfl, ?_⟩
  intro e he
  simp [NewProductService] at he

lemma goodState_create (ps : ProductService) (p : Product) (h : GoodState ps) :
    GoodState (CreateProduct ps p) ∧
    (CreateProduct ps p).products =
      ps.products ++ [(ps.nextID, { p with id := ps.nextID })] := by
  obtain ⟨hnext, hkeys, hid⟩ := h
  have hfresh : ∀ e ∈ ps.products, e.1 ≠ ps.nextID := by
    intro e he
    have : e.1 ∈ keysOf ps := List.mem_map_of_mem Prod.fst he
    rw [hkeys] at this
    simp only [List.mem_map, List.mem_range] at this
    obtain ⟨i, hi, hie⟩ := this
    omega
  have happ : (CreateProduct ps p).products =
      ps.products ++ [(ps.nextID, { p with id := ps.nextID })] := by
    simp only [CreateProduct]
    exact mapUpdate_of_fresh ps.nextID _ ps.products hfresh
  refine ⟨⟨?_, ?_, ?_⟩, happ⟩
  · rw [happ]
    simp [CreateProduct]
    omega
  · rw [keysOf, happ]
    simp only [List.length_append, List.length_singleton, List.map_append,
      List.range_succ, List.map_map]
    rw [keysOf] at hkeys
    simp [hkeys, hnext]
  · rw [happ]
    intro e he
    rcases List.mem_append.mp he with h1 | h2
    · exact hid e h1
    · simp only [List.mem_singleton] at h2
      subst h2
      rfl

lemma goodState_applyCreates (l : List Product) (ps : ProductService)
    (h : GoodState ps) :
    GoodState (applyCreates l ps) ∧
    (applyCreates l ps).products.length = ps.products.length + l.length := by
  induction l generalizing ps with
  | nil => simpa [applyCreates] using h
  | cons p rest ih =>
    obtain ⟨hg, happ⟩ := goodState_create ps p h
    obtain ⟨hg', hlen'⟩ := ih (CreateProduct ps p) hg
    have hstep : applyCreates (p :: rest) ps = applyCreates rest (CreateProduct ps p) := by
      simp [applyCreates]
    refine ⟨hstep ▸ hg', ?_⟩
    rw [hstep, hlen', happ]
    simp
    omega

/-! Section: Claim theorems (easy group) -/

/-- C1 counterexample: CreateProduct does not return the assigned identity to
the caller — its Go result list is empty, so no function of the returned
value can recover the identity: states with nextID 1 and nextID 2 assign
different identities yet produce the same returned value. -/
theorem C1_counterexample :
    ¬ ∃ g : Unit → Int, ∀ (ps : ProductService) (p : Product),
        g (CreateProductRet ps p) = ps.nextID := by
  rintro ⟨g, hg⟩
  have h1 := hg ⟨[], 1⟩ ⟨0, "", 0⟩
  have h2 := hg ⟨[], 2⟩ ⟨0, "", 0⟩
  simp only [CreateProductRet] at h1 h2
  rw [h1] at h2
  exact absurd h2 (by decide)

/-- C1 (amended): CreateProduct stores the record under the current nextID
with its ID field overwritten by nextID (any caller-supplied ID is ignored),
increments the counter in the same critical section, and returns nothing —
the assigned identity is not reported back to the caller. -/
theorem C1_create_assigns_stores_increments (ps : ProductService) (p : Product) :
    mapLookup ps.nextID (CreateProduct ps p).products =
      some { p with id := ps.nextID } ∧
    (CreateProduct ps p).nextID = ps.nextID + 1 ∧
    CreateProductRet ps p = () := by
  refine ⟨?_, rfl, rfl⟩
  simpa [CreateProduct] using
    mapLookup_mapUpdate_self ps.nextID { p with id := ps.nextID } ps.products

/-- C3: GetProducts is declared with a value receiver, so the RWMutex it
locks lives in a call-time copy of the ProductService struct, not in the
shared instance; its read of the shared products map is therefore not
serialized against CreateProduct, contradicting the guarantee that every
operation acquires the guard of the store. -/
theorem C3_getProducts_locks_private_copy :
    locksSharedGuard getProductsReceiver = false ∧
    locksSharedGuard createProductReceiver = true :=
  ⟨rfl, rfl⟩

/-- C4 counterexample: a POST whose body is the empty JSON object — missing
the required name and price fields — decodes successfully into the
zero-valued Product, so the handler answers Created, not BadRequest, and the
store is mutated. -/
theorem C4_counterexample :
    (createProductHandler Method.post (Body.obj none none none)
        NewProductService).1 = HStatus.created ∧
    (createProductHandler Method.post (Body.obj none none none)
        NewProductService).2 ≠ NewProductService := by
  decide

/-- C4 (amended): on a POST whose body fails JSON decoding, the handler
answers BadRequest and performs zero store mutations; a body that decodes —
even with required fields absent, which take their zero values — is not
rejected. -/
theorem C4_badRequest_no_mutation (body : Body) (ps : ProductService)
    (hb : decodeProduct body = none) :
    createProductHandler Method.post body ps = (HStatus.badRequest, ps) := by
  simp [createProductHandler, hb]

/-- C4 witness at a malformed body. -/
theorem C4_witness :
    createProductHandler Method.post Body.malformed NewProductService =
      (HStatus.badRequest, NewProductService) :=
  C4_badRequest_no_mutation Body.malformed NewProductService rfl

/-- C5: a request whose method differs from the allowed verb is answered
MethodNotAllowed with the state unchanged, uniformly in the body — so the
outcome is settled before any decoding and before any store access. -/
theorem C5_wrong_verb_rejected (m : Method) (body : Body) (ps : ProductService) :
    (m ≠ Method.post →
        createProductHandler m body ps = (HStatus.methodNotAllowed, ps)) ∧
    (m ≠ Method.get →
        getProductsHandler m ps = ((HStatus.methodNotAllowed, none), ps)) := by
  constructor
  · intro hm
    simp [createProductHandler, hm]
  · intro hm
    simp [getProductsHandler, hm]

/-- C5 witness: a GET hitting the create handler and a POST hitting the list
handler are both turned away with the store untouched. -/
theorem C5_witness :
    createProductHandler Method.get Body.malformed NewProductService =
      (HStatus.methodNotAllowed, NewProductService) ∧
    getProductsHandler Method.post NewProductService =
      ((HStatus.methodNotAllowed, none), NewProductService) :=
  ⟨(C5_wrong_verb_rejected Method.get Body.malformed NewProductService).1
      (by decide),
   (C5_wrong_verb_rejected Method.post Body.malformed NewProductService).2
      (by decide)⟩

/-- C6: GetItem on an absent key returns the not-found error and no record —
never a zero-valued record presented as found. -/
theorem C6_get_absent_signals_notFound (s : Store) (name : String)
    (h : mapLookup name s.items = none) :
    GetItem s name = (some "item not found", none) := by
  simp [GetItem, h]

/-- C6 witness: the fresh store holds no Orange. -/
theorem C6_witness :
    GetItem NewStore "Orange" = (some "item not found", none) :=
  C6_get_absent_signals_notFound NewStore "Orange" rfl

/-- C7: AddItem followed immediately by GetItem on the same name succeeds
and returns a record equal in value to the one inserted. -/
theorem C7_put_then_get (s : Store) (item : Item) :
    GetItem (AddItem s item) item.name = (none, some item) := by
  simp [GetItem, AddItem, mapLookup_mapUpdate_self]

/-- C9: the two results of GetItem are mutually exclusive — the error is nil
exactly when the record is non-nil; on an absent key the error is set and
the record nil, on a present key the error is nil and the record is the
stored value (a copy). -/
theorem C9_results_mutually_exclusive (s : Store) (name : String) :
    ((GetItem s name).1 = none ↔ (GetItem s name).2 ≠ none) ∧
    (mapLookup name s.items = none →
        GetItem s name = (some "item not found", none)) ∧
    (∀ it, mapLookup name s.items = some it →
        GetItem s name = (none, some it)) := by
  unfold GetItem
  cases h : mapLookup name s.items <;> simp

/-- C9 witness: a present key yields a nil error and the stored record. -/
theorem C9_witness :
    GetItem (AddItem NewStore ⟨"Apple", 1⟩) "Apple" = (none, some ⟨"Apple", 1⟩) :=
  (C9_results_mutually_exclusive (AddItem NewStore ⟨"Apple", 1⟩) "Apple").2.2
    ⟨"Apple", 1⟩ (by decide)

/-! Section: Helpers for the identity sequence -/

lemma applyCreates_append (a b : List Product) (ps : ProductService) :
    applyCreates (a ++ b) ps = applyCreates b (applyCreates a ps) := by
  simp [applyCreates, List.foldl_append]

lemma createProduct_lookup_self (ps : ProductService) (p : Product) :
    mapLookup ps.nextID (CreateProduct ps p).products =
      some { p with id := ps.nextID } := by
  simpa [CreateProduct] using
    mapLookup_mapUpdate_self ps.nextID { p with id := ps.nextID } ps.products

lemma mem_keyList (n : Nat) (k : Int) :
    k ∈ (List.range n).map (fun i : Nat => (i : Int) + 1) ↔
      1 ≤ k ∧ k ≤ (n : Int) := by
  simp only [List.mem_map, List.mem_range]
  constructor
  · rintro ⟨i, hi, rfl⟩
    omega
  · rintro ⟨h1, h2⟩
    exact ⟨(k - 1).toNat, by omega, by omega⟩

lemma keyList_nodup (n : Nat) :
    ((List.range n).map (fun i : Nat => (i : Int) + 1)).Nodup := by
  refine List.Nodup.map ?_ (List.nodup_range n)
  intro a b hab
  have hab' : (a : Int) + 1 = (b : Int) + 1 := hab
  omega

lemma idList_eq_keysOf (ps : ProductService)
    (h : ∀ e ∈ ps.products, e.2.id = e.1) :
    (GetProducts ps).map Product.id = keysOf ps := by
  rw [GetProducts, keysOf, List.map_map]
  exact List.map_congr_left h

lemma length_applyCreates_new (l : List Product) :
    (applyCreates l NewProductService).products.length = l.length := by
  have h := goodState_applyCreates l NewProductService goodState_new
  simpa [NewProductService] using h.2

lemma nextID_applyCreates_new (l : List Product) :
    (applyCreates l NewProductService).nextID = (l.length : Int) + 1 := by
  have h := goodState_applyCreates l NewProductService goodState_new
  rw [h.1.1, length_applyCreates_new]

/-! Section: Claim theorems (identity sequence and invariant) -/

/-- C2: starting from a fresh service, the call number i (0-based) runs at a
state whose counter is i + 1 and stores its record under identity i + 1 with
that identity in the ID field — so identities are unique, start at 1, and
increase monotonically; after all N calls, GetProducts returns exactly N
records whose identity set is exactly 1..N. -/
theorem C2_identities_one_to_n (l : List Product) :
    (∀ i, i < l.length →
        (applyCreates (l.take i) NewProductService).nextID = (i : Int) + 1) ∧
    (∀ i (h : i < l.length),
        mapLookup ((i : Int) + 1)
            (applyCreates (l.take (i + 1)) NewProductService).products =
          some { l.get ⟨i, h⟩ with id := (i : Int) + 1 }) ∧
    (GetProducts (applyCreates l NewProductService)).length = l.length ∧
    ((GetProducts (applyCreates l NewProductService)).map Product.id).Nodup ∧
    (∀ k : Int,
        k ∈ (GetProducts (applyCreates l NewProductService)).map Product.id ↔
          1 ≤ k ∧ k ≤ (l.length : Int)) := by
  have hgood := (goodState_applyCreates l NewProductService goodState_new).1
  have hpre : ∀ i, i ≤ l.length →
      (applyCreates (l.take i) NewProductService).nextID = (i : Int) + 1 := by
    intro i hi
    rw [nextID_applyCreates_new (l.take i), List.length_take]
    omega
  refine ⟨fun i hi => hpre i (le_of_lt hi), ?_, ?_, ?_, ?_⟩
  · intro i h
    have htake : l.take (i + 1) = l.take i ++ [l.get ⟨i, h⟩] := by
      rw [List.take_succ, List.getElem?_eq_getElem h]
      rfl
    rw [htake, applyCreates_append]
    have hnext := hpre i (le_of_lt h)
    have := createProduct_lookup_self
      (applyCreates (l.take i) NewProductService) (l.get ⟨i, h⟩)
    rw [hnext] at this
    simpa [applyCreates] using this
  · rw [GetProducts, List.length_map, length_applyCreates_new]
  · rw [idList_eq_keysOf _ hgood.2.2, hgood.2.1]
    exact keyList_nodup _
  · intro k
    rw [idList_eq_keysOf _ hgood.2.2, hgood.2.1, length_applyCreates_new,
      mem_keyList]

/-- C2 witness at the two-element call sequence, call number 1. -/
theorem C2_witness :
    (applyCreates (([⟨7, "a", 1⟩, ⟨9, "b", 2⟩] : List Product).take 1)
        NewProductService).nextID = ((1 : Nat) : Int) + 1 ∧
    mapLookup (((1 : Nat) : Int) + 1)
        (applyCreates (([⟨7, "a", 1⟩, ⟨9, "b", 2⟩] : List Product).take (1 + 1))
          NewProductService).products =
      some { ([⟨7, "a", 1⟩, ⟨9, "b", 2⟩] : List Product).get ⟨1, by decide⟩ with
              id := ((1 : Nat) : Int) + 1 } :=
  ⟨(C2_identities_one_to_n [⟨7, "a", 1⟩, ⟨9, "b", 2⟩]).1 1 (by decide),
   (C2_identities_one_to_n [⟨7, "a", 1⟩, ⟨9, "b", 2⟩]).2.1 1 (by decide)⟩

/-- C10: in every service state reachable from NewProductService by
CreateProduct calls, the key set of the products map is exactly the integers
from 1 to nextID - 1 (with no duplicate keys, so no create overwrote an
existing record), and every stored record carries the key it is stored under
in its ID field. -/
theorem C10_reachable_invariant (l : List Product) :
    (∀ k : Int, k ∈ keysOf (applyCreates l NewProductService) ↔
        1 ≤ k ∧ k ≤ (applyCreates l NewProductService).nextID - 1) ∧
    (∀ e ∈ (applyCreates l NewProductService).products, e.2.id = e.1) ∧
    (keysOf (applyCreates l NewProductService)).Nodup := by
  have hgood := (goodState_applyCreates l NewProductService goodState_new).1
  refine ⟨?_, hgood.2.2, ?_⟩
  · intro k
    rw [hgood.2.1, nextID_applyCreates_new, length_applyCreates_new,
      mem_keyList]
    omega
  · rw [hgood.2.1]
    exact keyList_nodup _

/-- C10 witness: after one create, identity 1 is a key of the store. -/
theorem C10_witness :
    (1 : Int) ∈ keysOf (applyCreates [⟨5, "x", 3⟩] NewProductService) :=
  ((C10_reachable_invariant [⟨5, "x", 3⟩]).1 1).mpr (by decide)

/-- C8: records handed to callers are independent copies.  Mutating the cell
behind the pointer returned by GetItem leaves the store component untouched,
so every later GetItem answers as before; mutating an element of the slice
returned by GetProducts leaves the service untouched; and after a later
CreateProduct, reading the already-returned slice still yields the snapshot
taken when the lock was held, not a live view. -/
theorem C8_copy_isolation :
    (∀ (st : StoreHeap) (name : String) (e : Option String) (ptr : Nat)
        (st1 : StoreHeap) (v : Item),
      getItemPtr st name = ((e, some ptr), st1) →
        (writeItemPtr st1 ptr v).store = st.store ∧
        ∀ n : String, GetItem (writeItemPtr st1 ptr v).store n =
          GetItem st.store n) ∧
    (∀ (st : ServiceHeap) (hdr : Nat × Nat) (st1 : ServiceHeap),
      getProductsAlloc st = (hdr, st1) →
        (∀ (i : Nat) (v : Product),
            GetProducts (writeProductCell st1 i v).service =
              GetProducts st.service) ∧
        ∀ q : Product,
          readSlice (createInHeap st1 q) hdr.1 hdr.2 =
            GetProducts st.service) := by
  constructor
  · intro st name e ptr st1 v h
    unfold getItemPtr at h
    cases hm : mapLookup name st.store.items with
    | none =>
      rw [hm] at h
      simp at h
    | some item =>
      rw [hm] at h
      obtain ⟨-, hst⟩ := Prod.mk.injEq .. ▸ h
      refine ⟨?_, fun n => ?_⟩ <;> rw [← hst] <;> rfl
  · intro st hdr st1 h
    unfold getProductsAlloc at h
    obtain ⟨hhdr, hst⟩ := Prod.mk.injEq .. ▸ h
    constructor
    · intro i v
      rw [← hst]
      rfl
    · intro q
      rw [← hst, ← hhdr, readSlice, createInHeap]
      simp [writeProductCell, List.drop_left, List.take_length]

/-- C8 witness: writing through the pointer obtained for Apple does not
change the store. -/
theorem C8_witness :
    (writeItemPtr ⟨⟨[("Apple", ⟨"Apple", 1⟩)]⟩, [⟨"Apple", 1⟩]⟩ 0
        ⟨"Apple", 99⟩).store =
      (⟨⟨[("Apple", ⟨"Apple", 1⟩)]⟩, []⟩ : StoreHeap).store :=
  (C8_copy_isolation.1 ⟨⟨[("Apple", ⟨"Apple", 1⟩)]⟩, []⟩ "Apple" none 0
      ⟨⟨[("Apple", ⟨"Apple", 1⟩)]⟩, [⟨"Apple", 1⟩]⟩ ⟨"Apple", 99⟩ (by decide)).1
